import Mathlib

/-!
Verification development for the OpenKitx403 challenge-response
authentication system (repository Concorde89/X403Agent).

The repository ships the package documentation (packages/ts-server/README.md,
packages/ts-client/README.md), a demo Express server
(packages/examples/api-demo/server.ts) and a launcher script; the core
Verification Engine, Challenge Codec, Signature Verifier and in-memory Replay
Store implementations are not present as source files.  Those components are
therefore modelled here from the specification's documented contract
(spec sections 3, 4.1-4.5 and 7); the demo server and the README's
RedisReplayStore are embedded directly from their source text.

Conventions: byte strings are `List Nat`; timestamps are natural-number
seconds, compared over `Int` so that clock-skew subtraction never truncates;
the asynchronous collaborators (signature scheme, access gate, replay-store
backend reachability) are oracles passed as explicit parameters, and the
replay-store state is threaded explicitly through verification.
-/

namespace X403

/-- Modelled from the spec: optional request-context binding captured at
issuance time (spec section 3, Challenge.binding): method, path, `Origin`
header value and `User-Agent` header value, each present only when the
corresponding configuration flag is enabled. -/
structure Binding where
  method : Option String := none
  path : Option String := none
  origin : Option String := none
  userAgent : Option String := none
deriving DecidableEq, Repr

/-- Modelled from the spec: the Challenge payload (spec section 3). -/
structure Challenge where
  issuer : String
  audience : String
  nonce : List Nat
  issuedAt : Nat
  expiresAt : Nat
  binding : Option Binding := none
deriving DecidableEq, Repr

/-- Modelled from the spec: the SignedChallenge wire form (spec section 3):
canonical encoded Challenge bytes, a signature over those bytes, and the
claimed public key (wallet address). -/
structure SignedChallenge where
  challengeBytes : List Nat
  signature : List Nat
  publicKey : String
deriving DecidableEq, Repr

/-- Modelled from the spec: the ReplayKey is derived deterministically from
`(issuer, audience, nonce, publicKey)` (spec section 3). -/
structure ReplayKey where
  issuer : String
  audience : String
  nonce : List Nat
  publicKey : String
deriving DecidableEq, Repr

/-- Modelled from the spec: the rejection-reason taxonomy (spec section 7). -/
inductive Reason where
  | malformed_request
  | issuer_mismatch
  | audience_mismatch
  | expired
  | not_yet_valid
  | binding_mismatch
  | invalid_signature
  | replay_detected
  | gate_timeout
  | access_denied
  | internal_error
deriving DecidableEq, Repr

/-- Modelled from the spec: a VerificationResult is either an authenticated
identity (address and decoded Challenge) or a tagged rejection reason
(spec section 3). -/
inductive VerifyResult where
  | accepted (address : String) (challenge : Challenge)
  | rejected (reason : Reason)
deriving DecidableEq, Repr

/-- Modelled from the spec: the immutable engine configuration
(spec sections 3 and 6), matching `OpenKit403Config` in
packages/ts-server/README.md.  The replay store and token gate collaborators
are passed separately as explicit state and oracles. -/
structure Config where
  issuer : String
  audience : String
  ttlSeconds : Nat := 60
  clockSkewSeconds : Nat := 120
  bindMethodPath : Bool := false
  originBinding : Bool := false
  uaBinding : Bool := false
deriving DecidableEq, Repr

/-! ### Challenge Codec (spec section 4.1)

Modelled from the spec: a total deterministic `encode` into a canonical byte
string with stable field order and stable separators, and a `decode` that
rejects malformed structure, a nonce of insufficient length, and numeric
fields outside a sane range.  Numbers (and container lengths) are encoded
fixed-width as eight little-endian base-256 digits, which gives the stable
field order/separator discipline the spec requires. -/

/-- Eight little-endian base-256 digits of `n` (canonical for `n < 2^64`). -/
def nat64ToBytes (n : Nat) : List Nat :=
  [n % 256, n / 256 % 256, n / 65536 % 256, n / 16777216 % 256,
   n / 4294967296 % 256, n / 1099511627776 % 256,
   n / 281474976710656 % 256, n / 72057594037927936 % 256]

/-- Read an eight-byte little-endian number from the front of a byte string. -/
def decNat64 : List Nat → Option (Nat × List Nat)
  | b0 :: b1 :: b2 :: b3 :: b4 :: b5 :: b6 :: b7 :: rest =>
      some (b0 + 256 * b1 + 65536 * b2 + 16777216 * b3 + 4294967296 * b4
              + 1099511627776 * b5 + 281474976710656 * b6
              + 72057594037927936 * b7, rest)
  | _ => none

/-- Length-prefixed encoding of a raw byte sequence. -/
def encBytes (l : List Nat) : List Nat :=
  nat64ToBytes l.length ++ l

/-- Decode a length-prefixed byte sequence from the front of the input. -/
def decBytes (bs : List Nat) : Option (List Nat × List Nat) :=
  match decNat64 bs with
  | none => none
  | some (len, rest) =>
      if len ≤ rest.length then some (rest.take len, rest.drop len) else none

/-- Length-prefixed encoding of a string as its character code points. -/
def encString (s : String) : List Nat :=
  encBytes (s.data.map Char.toNat)

/-- Decode a length-prefixed string from the front of the input. -/
def decString (bs : List Nat) : Option (String × List Nat) :=
  match decBytes bs with
  | none => none
  | some (cs, rest) => some (String.mk (cs.map Char.ofNat), rest)

/-- Tag-prefixed encoding of an optional field (0 = absent, 1 = present). -/
def encOpt (f : α → List Nat) : Option α → List Nat
  | none => [0]
  | some a => 1 :: f a

/-- Decode a tag-prefixed optional field from the front of the input. -/
def decOpt (f : List Nat → Option (α × List Nat)) :
    List Nat → Option (Option α × List Nat)
  | [] => none
  | 0 :: rest => some (none, rest)
  | 1 :: rest =>
      match f rest with
      | none => none
      | some (a, r) => some (some a, r)
  | _ => none

/-- Canonical encoding of a binding record, fields in declaration order. -/
def encBinding (b : Binding) : List Nat :=
  encOpt encString b.method ++ encOpt encString b.path
    ++ encOpt encString b.origin ++ encOpt encString b.userAgent

/-- Decode a binding record from the front of the input. -/
def decBinding (bs : List Nat) : Option (Binding × List Nat) :=
  match decOpt decString bs with
  | none => none
  | some (m, r1) =>
    match decOpt decString r1 with
    | none => none
    | some (p, r2) =>
      match decOpt decString r2 with
      | none => none
      | some (o, r3) =>
        match decOpt decString r3 with
        | none => none
        | some (u, r4) =>
            some ({ method := m, path := p, origin := o, userAgent := u }, r4)

/-- Modelled from the spec: `encode(Challenge) -> bytes`, a total
deterministic function with stable field order (spec section 4.1). -/
def encode (c : Challenge) : List Nat :=
  encString c.issuer ++ encString c.audience ++ encBytes c.nonce
    ++ nat64ToBytes c.issuedAt ++ nat64ToBytes c.expiresAt
    ++ encOpt encBinding c.binding

/-- Structural parse of a Challenge, returning the unconsumed suffix. -/
def decodeRaw (bs : List Nat) : Option (Challenge × List Nat) :=
  match decString bs with
  | none => none
  | some (iss, r1) =>
    match decString r1 with
    | none => none
    | some (aud, r2) =>
      match decBytes r2 with
      | none => none
      | some (non, r3) =>
        match decNat64 r3 with
        | none => none
        | some (ia, r4) =>
          match decNat64 r4 with
          | none => none
          | some (ea, r5) =>
            match decOpt decBinding r5 with
            | none => none
            | some (b, r6) =>
                some ({ issuer := iss, audience := aud, nonce := non,
                        issuedAt := ia, expiresAt := ea, binding := b }, r6)

/-- Modelled from the spec: `decode(bytes) -> Challenge | DecodeError`
(spec section 4.1).  Rejects malformed structure (parse failure or trailing
bytes), a nonce of insufficient length (fewer than 16 bytes) or with
out-of-range bytes, and timestamps outside a sane range (at or above 2^63). -/
def decode (bs : List Nat) : Option Challenge :=
  match decodeRaw bs with
  | some (c, []) =>
      if 16 ≤ c.nonce.length ∧ (∀ b ∈ c.nonce, b < 256)
          ∧ c.issuedAt < 2 ^ 63 ∧ c.expiresAt < 2 ^ 63
      then some c else none
  | _ => none

/-- A string whose length fits the fixed-width length prefix. -/
def strOk (s : String) : Prop := s.data.length < 2 ^ 64

instance (s : String) : Decidable (strOk s) := by
  unfold strOk; infer_instance

/-- Every string field of a binding record fits the length prefix. -/
def bindingOkLen (b : Binding) : Prop :=
  (∀ s ∈ b.method, strOk s) ∧ (∀ s ∈ b.path, strOk s)
    ∧ (∀ s ∈ b.origin, strOk s) ∧ (∀ s ∈ b.userAgent, strOk s)

instance (b : Binding) : Decidable (bindingOkLen b) := by
  unfold bindingOkLen; infer_instance

/-- Modelled from the spec: well-formedness of a Challenge (spec section 3
invariants plus section 4.1 decode validation): nonce of at least 16 bytes,
each byte in range, timestamps in a sane range with `expiresAt > issuedAt`,
and every variable-length field small enough for its length prefix. -/
def wf (c : Challenge) : Prop :=
  16 ≤ c.nonce.length ∧ c.nonce.length < 2 ^ 64 ∧ (∀ b ∈ c.nonce, b < 256)
    ∧ c.issuedAt < 2 ^ 63 ∧ c.expiresAt < 2 ^ 63 ∧ c.issuedAt < c.expiresAt
    ∧ strOk c.issuer ∧ strOk c.audience ∧ (∀ b ∈ c.binding, bindingOkLen b)

instance (c : Challenge) : Decidable (wf c) := by
  unfold wf; infer_instance

/-! ### Codec round-trip lemmas -/

theorem decNat64_nat64ToBytes (n : Nat) (h : n < 2 ^ 64) (r : List Nat) :
    decNat64 (nat64ToBytes n ++ r) = some (n, r) := by
  simp only [nat64ToBytes, List.cons_append, List.nil_append, decNat64]
  refine congrArg some (Prod.ext ?_ rfl)
  simp only
  omega

theorem decBytes_encBytes (l : List Nat) (h : l.length < 2 ^ 64)
    (r : List Nat) : decBytes (encBytes l ++ r) = some (l, r) := by
  simp only [encBytes, List.append_assoc, decBytes,
    decNat64_nat64ToBytes l.length h]
  rw [if_pos (by simp)]
  simp

theorem map_ofNat_map_toNat (l : List Char) :
    (l.map Char.toNat).map Char.ofNat = l := by
  induction l with
  | nil => rfl
  | cons c cs ih => simp [ih, Char.ofNat_toNat]

theorem decString_encString (s : String) (h : strOk s) (r : List Nat) :
    decString (encString s ++ r) = some (s, r) := by
  simp only [encString, decString,
    decBytes_encBytes (s.data.map Char.toNat) (by simpa [strOk] using h) r,
    map_ofNat_map_toNat]

theorem decOpt_encOpt {α : Type} (f : α → List Nat)
    (g : List Nat → Option (α × List Nat)) (o : Option α)
    (hok : α → Prop) (hall : ∀ a ∈ o, hok a)
    (hrt : ∀ a, hok a → ∀ r, g (f a ++ r) = some (a, r)) (r : List Nat) :
    decOpt g (encOpt f o ++ r) = some (o, r) := by
  cases o with
  | none => simp [encOpt, decOpt]
  | some a =>
      simp only [encOpt, List.cons_append, decOpt,
        hrt a (hall a (by simp)) r]

theorem decBinding_encBinding (b : Binding) (h : bindingOkLen b)
    (r : List Nat) : decBinding (encBinding b ++ r) = some (b, r) := by
  obtain ⟨hm, hp, ho, hu⟩ := h
  simp only [encBinding, List.append_assoc, decBinding,
    decOpt_encOpt encString decString b.method strOk hm decString_encString,
    decOpt_encOpt encString decString b.path strOk hp decString_encString,
    decOpt_encOpt encString decString b.origin strOk ho decString_encString,
    decOpt_encOpt encString decString b.userAgent strOk hu
      decString_encString]

theorem decodeRaw_encode (c : Challenge) (h : wf c) (r : List Nat) :
    decodeRaw (encode c ++ r) = some (c, r) := by
  obtain ⟨hn16, hnlen, hnb, hia, hea, hord, hiss, haud, hbind⟩ := h
  simp only [encode, List.append_assoc, decodeRaw,
    decString_encString c.issuer hiss,
    decString_encString c.audience haud,
    decBytes_encBytes c.nonce hnlen,
    decNat64_nat64ToBytes c.issuedAt (by omega),
    decNat64_nat64ToBytes c.expiresAt (by omega),
    decOpt_encOpt encBinding decBinding c.binding bindingOkLen hbind
      decBinding_encBinding]

theorem decode_encode (c : Challenge) (h : wf c) :
    decode (encode c) = some c := by
  have hr := decodeRaw_encode c h []
  rw [List.append_nil] at hr
  obtain ⟨hn16, hnlen, hnb, hia, hea, hord, hiss, haud, hbind⟩ := h
  simp only [decode, hr]
  rw [if_pos ⟨hn16, hnb, hia, hea⟩]

theorem encode_inj (c1 c2 : Challenge) (h1 : wf c1) (h2 : wf c2)
    (he : encode c1 = encode c2) : c1 = c2 := by
  have e1 := decode_encode c1 h1
  have e2 := decode_encode c2 h2
  rw [he, e2] at e1
  exact Option.some_injective _ e1.symm

/-! ### Replay Store (spec section 4.3)

Modelled from the spec: `check(key) -> bool` is true when the key has
already been recorded; `store(key, ttlSeconds)` records the key as consumed
with the given retention.  State is an explicit association list of recorded
keys and their retentions. -/

/-- Replay-store state: recorded keys with the retention they were given. -/
def ReplayState : Type := List (ReplayKey × Nat)

instance : DecidableEq ReplayState := by
  unfold ReplayState; infer_instance

/-- Modelled from the spec: `check(key)` — has the key been recorded? -/
def checkKey (st : ReplayState) (k : ReplayKey) : Bool :=
  st.any (fun e => e.1 == k)

/-- Modelled from the spec: `store(key, ttlSeconds)` — record the key. -/
def storeKey (st : ReplayState) (k : ReplayKey) (ttl : Nat) : ReplayState :=
  (k, ttl) :: st

/-- Retention recorded for a key, if any (most recent store wins). -/
def retentionOf (st : ReplayState) (k : ReplayKey) : Option Nat :=
  match st.find? (fun e => e.1 == k) with
  | none => none
  | some e => some e.2

theorem checkKey_storeKey_self (st : ReplayState) (k : ReplayKey)
    (ttl : Nat) : checkKey (storeKey st k ttl) k = true := by
  simp [checkKey, storeKey]

theorem retentionOf_storeKey_self (st : ReplayState) (k : ReplayKey)
    (ttl : Nat) : retentionOf (storeKey st k ttl) k = some ttl := by
  simp [retentionOf, storeKey, List.find?]

/-! ### Verification Engine (spec section 4.5)

Modelled from the spec: the fixed-order pipeline decode → issuer/audience →
time → binding → signature → replay → access gate → accept.  The signature
scheme is an oracle `sigOk`; the access gate is an optional oracle returning
one of four outcomes; a replay-store backend fault is an explicit flag that
fails closed. -/

/-- The inbound request abstraction consumed by the engine (spec section 6):
method, path, the `Origin` and `User-Agent` headers, and the credential
carried by the request, if a structurally present one exists. -/
structure Inbound where
  method : String
  path : String
  origin : Option String := none
  userAgent : Option String := none
  credential : Option SignedChallenge := none
deriving DecidableEq, Repr

/-- Modelled from the spec: outcome of one asynchronous access-gate call
(spec section 4.4): the predicate answered true or false, the engine-owned
timeout fired, or the gate threw an error. -/
inductive GateOutcome where
  | allow
  | deny
  | timeout
  | err
deriving DecidableEq, Repr

/-- Modelled from the spec: the ReplayKey derivation (spec section 3). -/
def replayKey (c : Challenge) (publicKey : String) : ReplayKey :=
  { issuer := c.issuer, audience := c.audience, nonce := c.nonce,
    publicKey := publicKey }

/-- Modelled from the spec: the time check (spec section 4.5 step 3):
reject `expired` when `now > expiresAt + clockSkewSeconds`, reject
`not_yet_valid` when `now < issuedAt - clockSkewSeconds`, with skew applied
symmetrically around both boundaries. -/
def timeCheck (clockSkewSeconds : Nat) (c : Challenge) (now : Int) :
    Option Reason :=
  if now > (c.expiresAt : Int) + (clockSkewSeconds : Int) then
    some .expired
  else if now < (c.issuedAt : Int) - (clockSkewSeconds : Int) then
    some .not_yet_valid
  else
    none

/-- Does a recorded optional binding value match the live request value? -/
def recordedMatches (recorded : Option String) (actual : String) : Bool :=
  match recorded with
  | some v => v == actual
  | none => false

/-- Modelled from the spec: the binding check (spec section 4.5 step 4):
for each enabled flag, compare the Challenge's recorded value against the
actual inbound value. -/
def bindingOk (cfg : Config) (c : Challenge) (req : Inbound) : Bool :=
  let b := c.binding.getD {}
  (!cfg.bindMethodPath
      || (recordedMatches b.method req.method
            && recordedMatches b.path req.path))
    && (!cfg.originBinding || b.origin == req.origin)
    && (!cfg.uaBinding || b.userAgent == req.userAgent)

/-- Modelled from the spec: the CPU-bound prefix of the pipeline
(spec section 4.5 steps 1-5): decode, issuer/audience, time, binding and
signature checks, before any replay-store or gate I/O. -/
def preCheck (cfg : Config)
    (sigOk : String → List Nat → List Nat → Bool)
    (now : Int) (req : Inbound) :
    Except Reason (Challenge × SignedChallenge) :=
  match req.credential with
  | none => .error .malformed_request
  | some sc =>
    match decode sc.challengeBytes with
    | none => .error .malformed_request
    | some c =>
      if c.issuer ≠ cfg.issuer then .error .issuer_mismatch
      else if c.audience ≠ cfg.audience then .error .audience_mismatch
      else
        match timeCheck cfg.clockSkewSeconds c now with
        | some r => .error r
        | none =>
          if ¬ bindingOk cfg c req then .error .binding_mismatch
          else if ¬ sigOk sc.publicKey (encode c) sc.signature then
            .error .invalid_signature
          else .ok (c, sc)

/-- Modelled from the spec: mapping of gate outcomes to rejection reasons
(spec sections 4.4, 7 and the section 8 gate property): deny →
`access_denied`, engine timeout → `gate_timeout`, thrown error →
`internal_error` (fail closed, never an implicit allow). -/
def gateCheck (gate : Option (String → GateOutcome)) (address : String) :
    Option Reason :=
  match gate with
  | none => none
  | some g =>
    match g address with
    | .allow => none
    | .deny => some .access_denied
    | .timeout => some .gate_timeout
    | .err => some .internal_error

/-- Modelled from the spec: the full Verification Engine pipeline
(spec section 4.5).  `storeFault` models an unreachable replay-store
backend, which fails closed as `internal_error`.  On a successful replay
check the key is recorded with retention `ttlSeconds + clockSkewSeconds`
before the accepted result is produced. -/
def verify (cfg : Config)
    (sigOk : String → List Nat → List Nat → Bool)
    (gate : Option (String → GateOutcome)) (storeFault : Bool)
    (now : Int) (req : Inbound) (st : ReplayState) :
    VerifyResult × ReplayState :=
  match preCheck cfg sigOk now req with
  | .error r => (.rejected r, st)
  | .ok (c, sc) =>
    if storeFault then (.rejected .internal_error, st)
    else if checkKey st (replayKey c sc.publicKey) then
      (.rejected .replay_detected, st)
    else
      let st' := storeKey st (replayKey c sc.publicKey)
                   (cfg.ttlSeconds + cfg.clockSkewSeconds)
      match gateCheck gate sc.publicKey with
      | some r => (.rejected r, st')
      | none => (.accepted sc.publicKey c, st')

/-- Inversion: everything an accepted verification implies — the CPU-bound
checks passed, the backend was reachable, the key was not yet recorded, the
gate allowed, and the resulting state records the ReplayKey with retention
`ttlSeconds + clockSkewSeconds`. -/
theorem verify_accepted_inv {cfg : Config}
    {sigOk : String → List Nat → List Nat → Bool}
    {gate : Option (String → GateOutcome)} {storeFault : Bool}
    {now : Int} {req : Inbound} {st : ReplayState}
    {a : String} {c : Challenge} {st' : ReplayState}
    (h : verify cfg sigOk gate storeFault now req st
          = (.accepted a c, st')) :
    ∃ sc, preCheck cfg sigOk now req = .ok (c, sc) ∧ sc.publicKey = a
      ∧ storeFault = false
      ∧ checkKey st (replayKey c a) = false
      ∧ gateCheck gate a = none
      ∧ st' = storeKey st (replayKey c a)
          (cfg.ttlSeconds + cfg.clockSkewSeconds) := by
  cases hpc : preCheck cfg sigOk now req with
  | error r => simp [verify, hpc] at h
  | ok p =>
    obtain ⟨c0, sc⟩ := p
    simp only [verify, hpc] at h
    by_cases hsf : storeFault = true
    · rw [if_pos hsf] at h
      simp at h
    · rw [if_neg hsf] at h
      by_cases hck : checkKey st (replayKey c0 sc.publicKey) = true
      · rw [if_pos hck] at h
        simp at h
      · rw [if_neg hck] at h
        rw [Bool.not_eq_true] at hsf hck
        cases hg : gateCheck gate sc.publicKey with
        | some r => simp [hg] at h
        | none =>
          simp only [hg] at h
          simp only [Prod.mk.injEq, VerifyResult.accepted.injEq] at h
          obtain ⟨⟨ha, hc⟩, hst⟩ := h
          subst ha
          subst hc
          exact ⟨sc, rfl, rfl, hsf, hck, hg, hst.symm⟩

/-! ### Demo server routing (packages/examples/api-demo/server.ts)

Embedded from the source: the Express app registers, in order, a public
`GET /health` route, then mounts `protectedRouter` at `/api`;
`protectedRouter` installs `openkit.middleware()` ahead of its
`GET /profile`, `GET /data` and `POST /submit` handlers, so only routes
under `/api` pass through verification. -/

/-- The route handlers registered in server.ts. -/
inductive DemoHandler where
  | health
  | profile
  | dataRoute
  | submit
deriving DecidableEq, Repr

/-- Express dispatch for the demo app, following registration order in
server.ts.  The `Bool` records whether the request passes through
`openkit.middleware()` before reaching the handler.  A mount at `/api`
matches `/api` itself or any path continuing with `/`, and the mounted
router sees the path with the mount prefix stripped. -/
def demoDispatch (method path : String) : Option (Bool × DemoHandler) :=
  if method = "GET" ∧ path = "/health" then some (false, .health)
  else if path = "/api" ∨ "/api/".data.isPrefixOf path.data = true then
    let sub := path.data.drop 4
    if method = "GET" ∧ sub = "/profile".data then some (true, .profile)
    else if method = "GET" ∧ sub = "/data".data then some (true, .dataRoute)
    else if method = "POST" ∧ sub = "/submit".data then some (true, .submit)
    else none
  else none

/-- The JSON body served by the health handler in server.ts, as
key-value pairs. -/
def demoHealthBody : List (String × String) := [("status", "healthy")]

/-! ### RedisReplayStore (packages/ts-server/README.md, lines 114-129)

Embedded from the source snippet; Redis itself is modelled as a list of
entries carrying their absolute expiry instant. -/

/-- Redis backing state: entries `(key, expiry)`, most recent first. -/
def RedisState : Type := List (String × Int)

instance : DecidableEq RedisState := by
  unfold RedisState
  infer_instance

/-- Redis `EXISTS key` at instant `now`: some unexpired entry matches. -/
def redisExists (st : RedisState) (now : Int) (key : String) : Bool :=
  st.any (fun e => e.1 == key && decide (now < e.2))

/-- Redis `SETEX key ttl v` at instant `now`: replace any entry for the
key with one expiring `ttl` seconds later. -/
def redisSetex (st : RedisState) (now : Int) (key : String) (ttl : Nat) :
    RedisState :=
  (key, now + (ttl : Int)) :: st.filter (fun e => e.1 != key)

/-- `RedisReplayStore.check` from the README: `exists(key)`; the
`ttlSeconds` argument is received but never used. -/
def RedisReplayStore.check (st : RedisState) (now : Int) (key : String)
    (ttlSeconds : Nat) : Bool :=
  redisExists st now key

/-- `RedisReplayStore.store` from the README: `setex(key, ttlSeconds, 1)`. -/
def RedisReplayStore.store (st : RedisState) (now : Int) (key : String)
    (ttlSeconds : Nat) : RedisState :=
  redisSetex st now key ttlSeconds

/-! ### Concrete scenario

The demo server's engine configuration together with a concrete well-formed
challenge bound to `GET /api/profile`, used to instantiate the general
theorems. -/

/-- Engine configuration created in server.ts: issuer `demo-api-v1`,
audience `http://localhost:3000`, `ttlSeconds` 60, `bindMethodPath` true;
`clockSkewSeconds` keeps its default 120. -/
def demoConfig : Config :=
  { issuer := "demo-api-v1", audience := "http://localhost:3000",
    ttlSeconds := 60, clockSkewSeconds := 120, bindMethodPath := true }

/-- A concrete 16-byte nonce. -/
def demoNonce : List Nat :=
  [1, 2, 3, 4, 5, 6, 7, 8, 9, 10, 11, 12, 13, 14, 15, 16]

/-- A well-formed challenge minted by the demo configuration and bound to
`GET /api/profile`. -/
def demoChallenge : Challenge :=
  { issuer := "demo-api-v1", audience := "http://localhost:3000",
    nonce := demoNonce, issuedAt := 1000, expiresAt := 1060,
    binding := some { method := some "GET", path := some "/api/profile" } }

/-- The same challenge with a different issuance instant (still
well-formed), for the injectivity instance. -/
def demoChallenge2 : Challenge :=
  { demoChallenge with issuedAt := 1001 }

/-- The signed wire credential carrying the demo challenge. -/
def demoSigned : SignedChallenge :=
  { challengeBytes := encode demoChallenge, signature := [0],
    publicKey := "wallet1" }

/-- A signature oracle that accepts: the concrete scenarios exercise the
engine around a correctly signed challenge. -/
def sigAlwaysOk : String → List Nat → List Nat → Bool :=
  fun _ _ _ => true

/-- The credential presented on `GET /api/profile`. -/
def demoGetReq : Inbound :=
  { method := "GET", path := "/api/profile",
    credential := some demoSigned }

/-- The identical credential presented on `POST /api/profile`. -/
def demoPostReq : Inbound :=
  { method := "POST", path := "/api/profile",
    credential := some demoSigned }

/-! ### The claims -/

/-- C1: Two verifications deriving the same ReplayKey cannot both succeed:
once a correctly signed, unexpired, binding-consistent, not-yet-replayed
SignedChallenge has been accepted, verifying the identical SignedChallenge
against the resulting replay-store state is rejected with reason
`replay_detected`. -/
theorem claim_replay_at_most_once (cfg : Config)
    (sigOk : String → List Nat → List Nat → Bool)
    (gate : Option (String → GateOutcome)) (storeFault : Bool)
    (now : Int) (req : Inbound) (st st' : ReplayState)
    (a : String) (c : Challenge)
    (h : verify cfg sigOk gate storeFault now req st
          = (.accepted a c, st')) :
    (verify cfg sigOk gate storeFault now req st').1
      = .rejected .replay_detected := by
  obtain ⟨sc, hpc, hpk, hsf, hck, hg, hst⟩ := verify_accepted_inv h
  subst hsf
  subst hst
  simp [verify, hpc, hpk, checkKey_storeKey_self]

/-- C1 witness: after the concrete demo challenge has been accepted and its
ReplayKey recorded, the identical request is rejected `replay_detected`. -/
theorem claim_replay_at_most_once_witness :
    (verify demoConfig sigAlwaysOk none false 1000 demoGetReq
        [(replayKey demoChallenge "wallet1", 180)]).1
      = .rejected .replay_detected :=
  claim_replay_at_most_once demoConfig sigAlwaysOk none false 1000
    demoGetReq [] [(replayKey demoChallenge "wallet1", 180)]
    "wallet1" demoChallenge (by decide)

/-- C2: the time check rejects `expired` exactly when
`now > expiresAt + clockSkewSeconds` and rejects `not_yet_valid` exactly
when `now < issuedAt - clockSkewSeconds`; in particular
`now = expiresAt + clockSkewSeconds` passes the time check (inclusive
boundary) and `now = expiresAt + clockSkewSeconds + 1` is rejected
`expired`. -/
theorem claim_time_check_boundaries (skew : Nat) (c : Challenge) (now : Int)
    (h : c.issuedAt ≤ c.expiresAt) :
    (timeCheck skew c now = some .expired
        ↔ (c.expiresAt : Int) + (skew : Int) < now)
    ∧ (timeCheck skew c now = some .not_yet_valid
        ↔ now < (c.issuedAt : Int) - (skew : Int))
    ∧ timeCheck skew c ((c.expiresAt : Int) + (skew : Int)) = none
    ∧ timeCheck skew c ((c.expiresAt : Int) + (skew : Int) + 1)
        = some .expired := by
  unfold timeCheck
  refine ⟨?_, ?_, ?_, ?_⟩
  · split_ifs with h1 h2 <;> simp_all
  · split_ifs with h1 h2 <;> simp_all
    omega
  · split_ifs with h1 h2 <;> simp_all
    omega
  · split_ifs with h1 h2 <;> simp_all

/-- C2 witness: for the demo challenge (`expiresAt` 1060, skew 120), the
instant 1180 passes the time check and 1181 is rejected `expired`. -/
theorem claim_time_check_boundaries_witness :
    timeCheck 120 demoChallenge 1180 = none
    ∧ timeCheck 120 demoChallenge 1181 = some .expired :=
  ⟨(claim_time_check_boundaries 120 demoChallenge 0 (by decide)).2.2.1,
   (claim_time_check_boundaries 120 demoChallenge 0 (by decide)).2.2.2⟩

/-- C3: for every well-formed Challenge, decoding the bytes produced by the
total deterministic `encode` recovers the Challenge in every field. -/
theorem claim_codec_round_trip (c : Challenge) (h : wf c) :
    decode (encode c) = some c :=
  decode_encode c h

/-- C3 witness: the concrete demo challenge round-trips. -/
theorem claim_codec_round_trip_witness :
    decode (encode demoChallenge) = some demoChallenge :=
  claim_codec_round_trip demoChallenge (by decide)

/-- C4: `encode` is injective over well-formed Challenges: two well-formed
Challenges differing in at least one field encode to different bytes. -/
theorem claim_encode_injective (c1 c2 : Challenge) (h1 : wf c1)
    (h2 : wf c2) (hne : c1 ≠ c2) : encode c1 ≠ encode c2 :=
  fun he => hne (encode_inj c1 c2 h1 h2 he)

/-- C4 witness: two concrete well-formed challenges differing only in
`issuedAt` have different encodings. -/
theorem claim_encode_injective_witness :
    encode demoChallenge ≠ encode demoChallenge2 :=
  claim_encode_injective demoChallenge demoChallenge2 (by decide)
    (by decide) (by decide)

/-- C5: every accepted verification has already recorded the request's
ReplayKey with retention `ttlSeconds + clockSkewSeconds` in the
replay-store state it returns: the state is exactly the store of that key,
the key checks as present, and its recorded retention is
`ttlSeconds + clockSkewSeconds`. -/
theorem claim_store_before_success (cfg : Config)
    (sigOk : String → List Nat → List Nat → Bool)
    (gate : Option (String → GateOutcome)) (storeFault : Bool)
    (now : Int) (req : Inbound) (st st' : ReplayState)
    (a : String) (c : Challenge)
    (h : verify cfg sigOk gate storeFault now req st
          = (.accepted a c, st')) :
    st' = storeKey st (replayKey c a)
            (cfg.ttlSeconds + cfg.clockSkewSeconds)
    ∧ checkKey st' (replayKey c a) = true
    ∧ retentionOf st' (replayKey c a)
        = some (cfg.ttlSeconds + cfg.clockSkewSeconds) := by
  obtain ⟨sc, hpc, hpk, hsf, hck, hg, hst⟩ := verify_accepted_inv h
  subst hst
  exact ⟨rfl, checkKey_storeKey_self _ _ _, retentionOf_storeKey_self _ _ _⟩

/-- C5 witness: the accepting demo verification returns a state recording
the demo ReplayKey with retention 60 + 120 = 180. -/
theorem claim_store_before_success_witness :
    ([(replayKey demoChallenge "wallet1", 180)] : ReplayState)
      = storeKey [] (replayKey demoChallenge "wallet1")
          (demoConfig.ttlSeconds + demoConfig.clockSkewSeconds)
    ∧ checkKey [(replayKey demoChallenge "wallet1", 180)]
        (replayKey demoChallenge "wallet1") = true
    ∧ retentionOf [(replayKey demoChallenge "wallet1", 180)]
        (replayKey demoChallenge "wallet1")
        = some (demoConfig.ttlSeconds + demoConfig.clockSkewSeconds) :=
  claim_store_before_success demoConfig sigAlwaysOk none false 1000
    demoGetReq [] [(replayKey demoChallenge "wallet1", 180)]
    "wallet1" demoChallenge (by decide)

/-- C6: with a token gate configured, an otherwise-fully-valid request whose
gate evaluates false is rejected `access_denied`; one whose gate call hits
the engine timeout is rejected `gate_timeout`, which is distinct from
`access_denied`; and a gate timeout or thrown gate error is never an
implicit allow. -/
theorem claim_gate_outcomes (cfg : Config)
    (sigOk : String → List Nat → List Nat → Bool)
    (g : String → GateOutcome) (now : Int) (req : Inbound)
    (st : ReplayState) (c : Challenge) (sc : SignedChallenge)
    (hpc : preCheck cfg sigOk now req = .ok (c, sc))
    (hck : checkKey st (replayKey c sc.publicKey) = false) :
    (g sc.publicKey = .deny →
        (verify cfg sigOk (some g) false now req st).1
          = .rejected .access_denied)
    ∧ (g sc.publicKey = .timeout →
        (verify cfg sigOk (some g) false now req st).1
          = .rejected .gate_timeout)
    ∧ Reason.gate_timeout ≠ Reason.access_denied
    ∧ (g sc.publicKey ≠ .allow →
        ∀ a c2, (verify cfg sigOk (some g) false now req st).1
          ≠ .accepted a c2) := by
  refine ⟨fun hgv => ?_, fun hgv => ?_, by decide, fun hgv a c2 => ?_⟩
  · simp [verify, hpc, hck, gateCheck, hgv]
  · simp [verify, hpc, hck, gateCheck, hgv]
  · cases hgo : g sc.publicKey with
    | allow => exact absurd hgo hgv
    | deny => simp [verify, hpc, hck, gateCheck, hgo]
    | timeout => simp [verify, hpc, hck, gateCheck, hgo]
    | err => simp [verify, hpc, hck, gateCheck, hgo]

/-- C6 witness: on the concrete fully-valid demo request, a gate that times
out yields `gate_timeout`. -/
theorem claim_gate_outcomes_witness :
    (verify demoConfig sigAlwaysOk (some (fun _ => GateOutcome.timeout))
        false 1000 demoGetReq []).1 = .rejected .gate_timeout :=
  (claim_gate_outcomes demoConfig sigAlwaysOk (fun _ => GateOutcome.timeout)
    1000 demoGetReq [] demoChallenge demoSigned rfl rfl).2.1 rfl

/-- C7: with `bindMethodPath` enabled (the demo server configuration), the
signed challenge bound to `GET /api/profile` presented on
`POST /api/profile` is rejected `binding_mismatch`, and the same signed
challenge presented on `GET /api/profile` passes the binding check and,
with every other check passing, is accepted. -/
theorem claim_binding_method_path :
    verify demoConfig sigAlwaysOk none false 1000 demoPostReq []
      = (.rejected .binding_mismatch, [])
    ∧ verify demoConfig sigAlwaysOk none false 1000 demoGetReq []
      = (.accepted "wallet1" demoChallenge,
         [(replayKey demoChallenge "wallet1", 180)]) :=
  ⟨by decide, by decide⟩

/-- C8: verification is a total function into tagged results — every run
produces either an acceptance or a rejection carrying a taxonomy reason —
and backend faults fail closed: an unreachable replay store never yields an
acceptance, and neither does a gate that throws on every address. -/
theorem claim_fail_closed (cfg : Config)
    (sigOk : String → List Nat → List Nat → Bool)
    (gate : Option (String → GateOutcome)) (storeFault : Bool)
    (now : Int) (req : Inbound) (st : ReplayState) :
    ((∃ a c, (verify cfg sigOk gate storeFault now req st).1
        = .accepted a c)
      ∨ (∃ r, (verify cfg sigOk gate storeFault now req st).1
        = .rejected r))
    ∧ (storeFault = true → ∀ a c,
        (verify cfg sigOk gate storeFault now req st).1 ≠ .accepted a c)
    ∧ (∀ g, gate = some g → (∀ ad, g ad = .err) → ∀ a c,
        (verify cfg sigOk gate storeFault now req st).1
          ≠ .accepted a c) := by
  refine ⟨?_, ?_, ?_⟩
  · cases hv : (verify cfg sigOk gate storeFault now req st).1 with
    | accepted a c => exact .inl ⟨a, c, rfl⟩
    | rejected r => exact .inr ⟨r, rfl⟩
  · intro hsf a c hacc
    rcases hv : verify cfg sigOk gate storeFault now req st with ⟨v, s2⟩
    rw [hv] at hacc
    obtain rfl : v = .accepted a c := hacc
    obtain ⟨sc, _, _, hsf', _, _, _⟩ := verify_accepted_inv hv
    rw [hsf] at hsf'
    exact absurd hsf' (by decide)
  · intro g hg hall a c hacc
    rcases hv : verify cfg sigOk gate storeFault now req st with ⟨v, s2⟩
    rw [hv] at hacc
    obtain rfl : v = .accepted a c := hacc
    obtain ⟨sc, _, _, _, _, hgate, _⟩ := verify_accepted_inv hv
    rw [hg] at hgate
    simp [gateCheck, hall a] at hgate

/-- C8 witness: with the replay-store backend unreachable, the otherwise
accepting demo request is not accepted. -/
theorem claim_fail_closed_witness :
    (verify demoConfig sigAlwaysOk none true 1000 demoGetReq []).1
      ≠ VerifyResult.accepted "wallet1" demoChallenge :=
  (claim_fail_closed demoConfig sigAlwaysOk none true 1000
    demoGetReq []).2.1 rfl "wallet1" demoChallenge

/-- C9: in the demo server, `GET /health` reaches the health handler
without passing through the verification middleware and its response body
is the pair `status: healthy`, while every route that does pass through the
middleware lives under the `/api` mount. -/
theorem claim_demo_health_public :
    demoDispatch "GET" "/health" = some (false, .health)
    ∧ demoHealthBody = [("status", "healthy")]
    ∧ (∀ m p h, demoDispatch m p = some (true, h) →
        p = "/api" ∨ "/api/".data.isPrefixOf p.data = true) := by
  refine ⟨by decide, rfl, ?_⟩
  intro m p h hd
  unfold demoDispatch at hd
  by_cases h1 : m = "GET" ∧ p = "/health"
  · rw [if_pos h1] at hd
    simp at hd
  · rw [if_neg h1] at hd
    by_cases h2 : p = "/api" ∨ "/api/".data.isPrefixOf p.data = true
    · exact h2
    · rw [if_neg h2] at hd
      exact Option.noConfusion hd

/-- C9 witness: the authenticated demo route `GET /api/profile` is under
the `/api` mount. -/
theorem claim_demo_health_public_witness :
    ("/api/profile" : String) = "/api"
      ∨ "/api/".data.isPrefixOf "/api/profile".data = true :=
  claim_demo_health_public.2.2 "GET" "/api/profile" .profile (by decide)

/-- C10: the README's RedisReplayStore `check` ignores its `ttlSeconds`
argument and returns exactly whether the key currently exists in the
backing store; after `store(key, ttlSeconds)` the key exists for
`ttlSeconds` seconds, so `check` answers true strictly within the window
and false once the entry has expired. -/
theorem claim_redis_check (st : RedisState) (now : Int) (key : String)
    (t1 t2 ttl tq : Nat) :
    RedisReplayStore.check st now key t1
        = RedisReplayStore.check st now key t2
    ∧ RedisReplayStore.check st now key t1 = redisExists st now key
    ∧ (∀ t : Int, now ≤ t → t < now + (ttl : Int) →
        RedisReplayStore.check (RedisReplayStore.store st now key ttl)
          t key tq = true)
    ∧ (∀ t : Int, now + (ttl : Int) ≤ t →
        RedisReplayStore.check (RedisReplayStore.store st now key ttl)
          t key tq = false) := by
  refine ⟨rfl, rfl, ?_, ?_⟩
  · intro t ht1 ht2
    simp [RedisReplayStore.check, RedisReplayStore.store, redisExists,
      redisSetex, ht2]
  · intro t ht
    have hhead : (key == key && decide (t < now + (ttl : Int))) = false := by
      simp
      omega
    have htail : (st.filter (fun e => e.1 != key)).any
        (fun e => e.1 == key && decide (t < e.2)) = false := by
      rw [List.any_eq_false]
      intro e he
      have := (List.mem_filter.mp he).2
      simp_all
    simp [RedisReplayStore.check, RedisReplayStore.store, redisExists,
      redisSetex, hhead, htail]
    omega

/-- C10 witness: storing key `k` at instant 0 with a 60-second TTL makes
`check` answer true at instant 30. -/
theorem claim_redis_check_witness :
    RedisReplayStore.check (RedisReplayStore.store [] 0 "k" 60) 30 "k" 0
      = true :=
  (claim_redis_check [] 0 "k" 5 7 60 0).2.2.1 30 (by decide) (by decide)

end X403
